import Mathlib

/-!
# Verification of the whop-scraper pipeline

Shallow embedding of the scoring / ranking engine (`rank.py`), the price and
rating extraction logic of `scrape_community_page` (`scrape_new.py`), the
fetch retry loops (`explore.py` / `scrape_new.py`), and the url
deduplication of `merge_batches.py`.  Machine floats are modelled by `ℚ`;
Python `int()` truncation and `round(x, 2)` (banker's rounding) are given
explicit rational models.
-/

namespace WhopScraper

/-! ## Rounding helpers

`round(x, 2)` in the source rounds to two decimal places; Python rounds
half-to-even, which we model exactly on `ℚ`. -/

/-! ## Definitions: rounding and truncation

`round(x, 2)` in the source rounds to two decimal places; Python rounds
half-to-even, which we model exactly on `ℚ`. -/

/-- Round a rational to the nearest integer, ties to the even integer
(Python's `round` semantics on exact values). -/
def roundHalfEven (q : ℚ) : ℤ :=
  if q - ⌊q⌋ < 1/2 then ⌊q⌋
  else if 1/2 < q - ⌊q⌋ then ⌊q⌋ + 1
  else if ⌊q⌋ % 2 = 0 then ⌊q⌋ else ⌊q⌋ + 1

/-- `round(x, 2)` of the source: round to two decimal places. -/
def round2 (q : ℚ) : ℚ := (roundHalfEven (q * 100) : ℚ) / 100

/-- Python `int()` applied to a float: truncation toward zero. -/
def pyInt (q : ℚ) : ℤ := if 0 ≤ q then ⌊q⌋ else ⌈q⌉

/-! ## Definitions: `rank.py` — size estimation, engagement score, confidence -/

/-- The `category_ratios` table of `estimate_community_size`
(0.03, 0.025, 0.02, 0.03, 0.035, 0.02, 0.025 as exact rationals). -/
def category_ratios : List (String × ℚ) :=
  [("Trading", 3/100), ("E-commerce", 1/40), ("Real Estate", 1/50),
   ("Finance", 3/100), ("Crypto", 7/200), ("Education", 1/50), ("Other", 1/40)]

/-- `estimate_community_size` of `rank.py` on a record's fields:
`reviews_count`, `price_monthly_usd`, `average_rating`, `category`. -/
def estimate_community_size (reviews : ℕ) (price rating : ℚ) (category : String) : ℤ :=
  let ratio : ℚ := ((category_ratios.lookup category).getD (1/40))
  let base_estimate : ℚ := if reviews > 0 then (reviews : ℚ) / ratio
    else if price > 0 then 100 else 50
  let price_multiplier : ℚ :=
    if price = 0 then 12/10
    else if price < 50 then 1
    else if price < 100 then 11/10
    else if price < 250 then 12/10
    else 13/10
  let rating_multiplier : ℚ :=
    if rating ≥ 48/10 then 12/10
    else if rating ≥ 45/10 then 11/10
    else if rating ≥ 4 then 1
    else 9/10
  let estimated_members := pyInt (base_estimate * price_multiplier * rating_multiplier)
  let min_members : ℤ := (reviews : ℤ) * 10
  let estimated_members := max estimated_members min_members
  min estimated_members 500000

/-- `calculate_engagement_score` of `rank.py` on a record's fields:
`estimated_members`, `reviews_count`, `average_rating`, `price_monthly_usd`. -/
def calculate_engagement_score (estimated_members reviews : ℕ) (rating price : ℚ) : ℚ :=
  let size_score : ℚ := (estimated_members : ℚ) * (6/10)
  let review_score : ℚ := ((reviews : ℚ) * (rating / 5)) * 20
  let revenue_indicator : ℚ := ((estimated_members : ℚ) * price / 100) * (15/100)
  let review_density : ℚ := ((reviews : ℚ) / (max (estimated_members : ℕ) 1 : ℕ)) * 10000
  round2 (size_score + review_score + revenue_indicator + review_density)

/-- `assign_confidence` of `rank.py`. -/
def assign_confidence (reviews : ℕ) (rating : ℚ) : String :=
  if reviews ≥ 100 ∧ rating ≥ 4 then "High"
  else if reviews ≥ 25 then "Medium"
  else "Low"

/-! ## Definitions: `scrape_new.py` — categorizer -/

/-- Auxiliary for `pyContains`: is the first character list a prefix of the
second? -/
def charsPrefixOf : List Char → List Char → Bool
  | [], _ => true
  | _ :: _, [] => false
  | c :: cs, d :: ds => c == d && charsPrefixOf cs ds

/-- Auxiliary for `pyContains`: does the needle occur contiguously in the
haystack? -/
def charsInfixOf (needle : List Char) : List Char → Bool
  | [] => charsPrefixOf needle []
  | d :: ds => charsPrefixOf needle (d :: ds) || charsInfixOf needle ds

/-- Python's substring test `word in text`, on texts represented as
character lists. -/
def pyContains (text : List Char) (word : String) : Bool :=
  charsInfixOf word.toList text

/-- ASCII lowercasing of one character (`str.lower()` per character; the
category keywords are all ASCII). -/
def charLower (c : Char) : Char :=
  if 65 ≤ c.toNat ∧ c.toNat ≤ 90 then Char.ofNat (c.toNat + 32) else c

/-- `any(word in combined_text for word in [...])` of the category block. -/
def keywordHit (combined : List Char) (words : List String) : Bool :=
  words.any (fun w => pyContains combined w)

/-- `combined_text = desc + ' ' + name` (both lowercased) of
`scrape_community_page`, as a character list. -/
def combinedText (name desc : String) : List Char :=
  (desc.toList.map charLower) ++ ' ' :: (name.toList.map charLower)

/-- The category block of `scrape_community_page` (`scrape_new.py`,
lines 133-150): keyword sets checked in fixed order, first hit wins. -/
def categorize (name desc : String) : String :=
  let combined_text := combinedText name desc
  if keywordHit combined_text
      ["trading", "forex", "crypto", "bitcoin", "stocks", "investment"] then "Trading"
  else if keywordHit combined_text
      ["ecommerce", "e-commerce", "dropship", "amazon", "shopify"] then "E-commerce"
  else if keywordHit combined_text
      ["real estate", "property", "realestate"] then "Real Estate"
  else if keywordHit combined_text
      ["finance", "financial", "money", "wealth"] then "Finance"
  else if keywordHit combined_text
      ["crypto", "cryptocurrency", "bitcoin", "ethereum", "nft"] then "Crypto"
  else if keywordHit combined_text
      ["education", "course", "learn", "tutorial", "training"] then "Education"
  else "Other"

/-- Modelled from the spec's words (§4.4) for the refinement conjunct of the
precedence claim: the ordered category/keyword table, evaluated first-match
wins with default "Other". -/
def categoryOrder : List (String × List String) :=
  [("Trading", ["trading", "forex", "crypto", "bitcoin", "stocks", "investment"]),
   ("E-commerce", ["ecommerce", "e-commerce", "dropship", "amazon", "shopify"]),
   ("Real Estate", ["real estate", "property", "realestate"]),
   ("Finance", ["finance", "financial", "money", "wealth"]),
   ("Crypto", ["crypto", "cryptocurrency", "bitcoin", "ethereum", "nft"]),
   ("Education", ["education", "course", "learn", "tutorial", "training"])]

/-- First-match-wins evaluation of `categoryOrder`, per the spec's words. -/
def categorizeSpec (name desc : String) : String :=
  match categoryOrder.find? (fun p => keywordHit (combinedText name desc) p.2) with
  | some p => p.1
  | none => "Other"

/-! ## Definitions: `scrape_new.py` — rating extraction -/

/-- The `aggregateRating` block of the JSON-LD Product data:
`ratingValue` and `reviewCount` after `float`/`int` parsing. -/
structure AggregateRating where
  ratingValue : ℚ
  reviewCount : ℤ
deriving DecidableEq

/-- The inputs of the rating fallback chain of `scrape_community_page`:
`product`: a JSON-LD "Product" block when one was found, holding its
(possibly absent/empty, hence `Option`) `aggregateRating`; `outOfFiveText`:
the number matched by the free-text `"<number> out of 5"` pattern, when the
pattern matches somewhere in the document. -/
structure RatingDoc where
  product : Option (Option AggregateRating)
  outOfFiveText : Option ℚ
deriving DecidableEq

/-- The `average_rating` value produced by `scrape_community_page`:
METHOD 1 reads `aggregateRating.ratingValue` (or stores 0.0 when the block is
falsy); METHOD 2 (the "out of 5" pattern) runs only when the stored rating is
missing or 0.0 (Python truthiness of `community_data.get('average_rating')`);
the final defaults replace a still-missing value with 0.0. -/
def extractAverageRating (d : RatingDoc) : ℚ :=
  let fromLd : Option ℚ :=
    match d.product with
    | none => none
    | some none => some 0
    | some (some ar) => some ar.ratingValue
  let afterText : Option ℚ :=
    if fromLd = none ∨ fromLd = some 0 then
      match d.outOfFiveText with
      | some r => some r
      | none => fromLd
    else fromLd
  match afterText with
  | none => 0
  | some r => r

/-! ## Definitions: `scrape_new.py` — price extraction -/

/-- One text span scanned by the pricing code: `amount` is the value captured
by the first match of the dollar-amount pattern `\$([0-9,]+(?:\.[0-9]{2})?)`
(commas stripped, parsed by `float`), `none` when the pattern does not match;
the four flags record whether the period-cue regexes `one-?time|lifetime`,
`week|weekly`, `year|yearly|annual`, `day|daily` (case-insensitive) match the
same span. -/
structure Span where
  amount : Option ℚ
  oneTime : Bool
  weekly : Bool
  yearly : Bool
  daily : Bool
deriving DecidableEq

/-- The human-readable `price_display` states (the dollar form carries the
raw matched amount and the period word that the source interpolates). -/
inductive PriceDisplay where
  | dollars (amount : ℚ) (period : String)
  | free
  | unknown
deriving DecidableEq

/-- The three price fields set by the FINAL STEP of `scrape_community_page`. -/
structure PriceResult where
  price_monthly_usd : ℚ
  price_display : PriceDisplay
  is_free : Bool
deriving DecidableEq

/-- The pricing inputs of `scrape_community_page`: `radios` are the texts of
radio/`RadioButtonGroup` elements (Method 1), `buttons` the texts of
button/anchor elements whose string matches the dollar pattern (Method 2),
`texts` the document strings in order, each flagged with whether its parent
is a `script`/`style` tag (Method 3 skips those), and `hasFree` whether the
`\bfree\b|\$0\b|no cost` pattern matches anywhere (Method 4). -/
structure PriceDoc where
  radios : List Span
  buttons : List Span
  texts : List (Bool × Span)
  hasFree : Bool

/-- The loop of Methods 1 and 2: first span whose text matches the dollar
pattern wins (`break`). -/
def firstAmount : List Span → Option (Span × ℚ)
  | [] => none
  | s :: rest =>
    match s.amount with
    | some v => some (s, v)
    | none => firstAmount rest

/-- The loop of Method 3: spans whose parent is a script/style tag are
skipped, then the first dollar match wins. -/
def firstVisibleAmount : List (Bool × Span) → Option (Span × ℚ)
  | [] => none
  | (inScript, s) :: rest =>
    if inScript then firstVisibleAmount rest
    else
      match s.amount with
      | some v => some (s, v)
      | none => firstVisibleAmount rest

/-- The billing-period ladder applied to a matched span in Methods 1 and 3:
one-time keeps the raw value, weekly multiplies by 4.33, yearly divides by
12, daily multiplies by 30, otherwise monthly as-is.  Returns the period
word and the resulting `price_monthly_usd`. -/
def periodConvert (s : Span) (v : ℚ) : String × ℚ :=
  if s.oneTime then ("one-time purchase", v)
  else if s.weekly then ("week", v * (433/100))
  else if s.yearly then ("year", v / 12)
  else if s.daily then ("day", v * 30)
  else ("month", v)

/-- The FINAL STEP of `scrape_community_page`: Methods 1-4 in order, then the
"Unknown" default.  Method 2 (buttons) sets the price with no period
detection, always displaying "/ month". -/
def extractPrice (d : PriceDoc) : PriceResult :=
  match firstAmount d.radios with
  | some (s, v) =>
    let pc := periodConvert s v
    ⟨pc.2, .dollars v pc.1, false⟩
  | none =>
    match firstAmount d.buttons with
    | some (_, v) => ⟨v, .dollars v "month", false⟩
    | none =>
      match firstVisibleAmount d.texts with
      | some (s, v) =>
        let pc := periodConvert s v
        ⟨pc.2, .dollars v pc.1, false⟩
      | none =>
        if d.hasFree then ⟨0, .free, true⟩ else ⟨0, .unknown, false⟩

/-- "No price was detected in the document": none of the three dollar-amount
strategies matched. -/
def noPriceDetected (d : PriceDoc) : Prop :=
  firstAmount d.radios = none ∧ firstAmount d.buttons = none ∧
    firstVisibleAmount d.texts = none

/-! ## Definitions: fetching — `get_page` of `explore.py` versus `get_page`
of `scrape_new.py`

Each attempt of the retry loop is driven by the remote's response for that
attempt; a run of the loop with budget `retries` consumes a list of at most
`retries` responses.  The model returns the fetched body (if any) together
with the number of requests actually issued. -/

/-- What one `requests.get` attempt can produce. -/
inductive FetchResp where
  | success (body : String)
  | httpStatus (code : ℕ)
  | timeoutExc
  | otherExc
deriving DecidableEq

/-- `get_page` of `explore.py`: 200 returns the body, 404 returns `None`
immediately, any other status prints and retries, a timeout waits and
retries, any other exception waits and retries; exhaustion yields `None`.
The input list holds the remote's response per attempt (one entry per loop
iteration available in the budget). -/
def explore_get_page : List FetchResp → Option String × ℕ
  | [] => (none, 0)
  | r :: rest =>
    match r with
    | .success body => (some body, 1)
    | .httpStatus code =>
      if code = 404 then (none, 1)
      else
        let p := explore_get_page rest
        (p.1, p.2 + 1)
    | .timeoutExc =>
      let p := explore_get_page rest
      (p.1, p.2 + 1)
    | .otherExc =>
      let p := explore_get_page rest
      (p.1, p.2 + 1)

/-- `get_page` of `scrape_new.py`: 200 returns the body, 429 sleeps and
retries, any other status (404 included) silently falls through to the next
attempt, any exception sleeps and retries; exhaustion yields `None`.  There
is no 404 special case. -/
def scrape_get_page : List FetchResp → Option String × ℕ
  | [] => (none, 0)
  | r :: rest =>
    match r with
    | .success body => (some body, 1)
    | .httpStatus _ =>
      let p := scrape_get_page rest
      (p.1, p.2 + 1)
    | .timeoutExc =>
      let p := scrape_get_page rest
      (p.1, p.2 + 1)
    | .otherExc =>
      let p := scrape_get_page rest
      (p.1, p.2 + 1)

/-! ## Definitions: the record collection — ranking (`rank.py` main),
merging (`merge_batches.py`) and batch appending (`scrape_new.py`) -/

/-- One persisted community record (the fields the collection passes touch). -/
structure Community where
  url : String
  community_name : String
  average_rating : ℚ
  reviews_count : ℕ
  price_monthly_usd : ℚ
  category : String
  estimated_members : ℤ
  confidence : String
  engagement_score : ℚ
  rank : ℕ
deriving DecidableEq

/-- The sort key relation of `communities.sort(key=..., reverse=True)`:
descending by `engagement_score` (CPython's sort is stable, as is
`List.mergeSort`, so ties retain prior relative order). -/
def scoreDescLe (a b : Community) : Bool :=
  decide (b.engagement_score ≤ a.engagement_score)

/-- Step 2 of `main` in `rank.py`: the stable descending sort. -/
def sortByScore (cs : List Community) : List Community :=
  cs.mergeSort scoreDescLe

/-- Step 3 of `main` in `rank.py`: `for i, community in enumerate(communities, 1):
community["rank"] = i`. -/
def assignRanksFrom : ℕ → List Community → List Community
  | _, [] => []
  | i, c :: rest => { c with rank := i } :: assignRanksFrom (i + 1) rest

/-- Steps 2-3 of `main` in `rank.py`: sort by engagement score descending,
then assign 1-based ranks. -/
def rankPass (cs : List Community) : List Community :=
  assignRanksFrom 1 (sortByScore cs)

/-- The deduplication loop of `merge_batch_files` (`merge_batches.py`):
walk the concatenated collection, keep a record only when its url is
non-empty and unseen. -/
def dedupAux (seen : List String) : List Community → List Community
  | [] => []
  | c :: rest =>
    if c.url ≠ "" ∧ c.url ∉ seen then c :: dedupAux (c.url :: seen) rest
    else dedupAux seen rest

/-- Deduplication by url, first occurrence wins (empty urls are dropped). -/
def dedupByUrl (cs : List Community) : List Community := dedupAux [] cs

/-- The `seen_urls` set after processing a list. -/
def seenAfter (seen : List String) : List Community → List String
  | [] => seen
  | c :: rest =>
    if c.url ≠ "" ∧ c.url ∉ seen then seenAfter (c.url :: seen) rest
    else seenAfter seen rest

/-- The append step of `process_sitemap_and_scrape` (`scrape_new.py`):
a scraped result joins the batch only when scraping succeeded and the
extracted name differs from the sentinel "Unknown". -/
def appendScraped (result : Option Community) (batch : List Community) :
    List Community :=
  match result with
  | some c => if c.community_name ≠ "Unknown" then batch ++ [c] else batch
  | none => batch

/-- A run of `process_sitemap_and_scrape` over successive scrape results. -/
def processResults (results : List (Option Community)) (batch : List Community) :
    List Community :=
  results.foldl (fun b r => appendScraped r b) batch

/-! ## Theorems: rounding -/

theorem roundHalfEven_ge (q : ℚ) : (⌊q⌋ : ℤ) ≤ roundHalfEven q := by
  unfold roundHalfEven
  split
  · exact le_refl _
  · split
    · omega
    · split <;> omega

theorem roundHalfEven_le (q : ℚ) : roundHalfEven q ≤ ⌊q⌋ + 1 := by
  unfold roundHalfEven
  split
  · omega
  · split
    · omega
    · split <;> omega

theorem roundHalfEven_mono {q q' : ℚ} (h : q ≤ q') :
    roundHalfEven q ≤ roundHalfEven q' := by
  rcases lt_or_eq_of_le (Int.floor_mono h) with hf | hf
  · calc roundHalfEven q ≤ ⌊q⌋ + 1 := roundHalfEven_le q
      _ ≤ ⌊q'⌋ := by omega
      _ ≤ roundHalfEven q' := roundHalfEven_ge q'
  · -- same floor: compare the fractional parts
    unfold roundHalfEven
    rw [hf]
    have hr : q - ⌊q'⌋ ≤ q' - ⌊q'⌋ := by
      have := hf ▸ (rfl : (⌊q⌋ : ℚ) = ⌊q⌋)
      linarith [sub_le_sub_right h ((⌊q'⌋ : ℚ))]
    by_cases h1 : q - ⌊q'⌋ < 1/2
    · rw [if_pos]
      · split
        · exact le_refl _
        · split
          · omega
          · split <;> omega
      · rw [← hf]; rw [hf]; exact h1
    · rw [if_neg]
      · have h1' : ¬ q' - ⌊q'⌋ < 1/2 := fun hlt => h1 (lt_of_le_of_lt hr hlt)
        rw [if_neg h1']
        by_cases h2 : 1/2 < q - ⌊q'⌋
        · have h2' : 1/2 < q' - ⌊q'⌋ := lt_of_lt_of_le h2 hr
          rw [if_pos h2, if_pos h2']
        · rw [if_neg h2]
          by_cases h3 : 1/2 < q' - ⌊q'⌋
          · rw [if_pos h3]
            split <;> omega
          · rw [if_neg h3]
      · exact h1

theorem round2_mono {q q' : ℚ} (h : q ≤ q') : round2 q ≤ round2 q' := by
  unfold round2
  have := roundHalfEven_mono (mul_le_mul_of_nonneg_right h (by norm_num : (0:ℚ) ≤ 100))
  have hc : (roundHalfEven (q * 100) : ℚ) ≤ (roundHalfEven (q' * 100) : ℚ) := by
    exact_mod_cast this
  linarith

/-! ## Theorems: claims C1 and C2 — engagement score and size estimate -/

/-- C1 counterexample: holding reviewsCount = 1, averageRating = 0 and
priceMonthlyUsd = 0 fixed, raising estimatedMembers from 1 to 2 strictly
decreases the engagement score (the review-density term `10000*reviews/members`
drops from 10000 to 5000), so the score is not monotone in estimatedMembers. -/
theorem engagement_score_decreases_at_one_two :
    calculate_engagement_score 2 1 0 0 < calculate_engagement_score 1 1 0 0 := by
  norm_num [calculate_engagement_score, round2, roundHalfEven]

/-- C1 (amended): holding reviewsCount = 0 (and rating and price fixed,
price nonnegative), increasing estimatedMembers never decreases the
engagement score; with a positive reviewsCount the review-density term
`10000*(reviewsCount/max(estimatedMembers,1))` can make the score strictly
decrease as estimatedMembers grows. -/
theorem engagement_score_monotone_of_no_reviews
    (m m' : ℕ) (rating price : ℚ) (hm : m ≤ m') (hp : 0 ≤ price) :
    calculate_engagement_score m 0 rating price ≤
      calculate_engagement_score m' 0 rating price := by
  unfold calculate_engagement_score
  apply round2_mono
  have hmq : (m : ℚ) ≤ (m' : ℚ) := by exact_mod_cast hm
  simp only [Nat.cast_zero, zero_mul, mul_zero, zero_div, add_zero, zero_add]
  have h2 : (m : ℚ) * price ≤ (m' : ℚ) * price :=
    mul_le_mul_of_nonneg_right hmq hp
  nlinarith

/-- C1 witness for `engagement_score_monotone_of_no_reviews` at
m = 3, m' = 5, rating = 4, price = 10. -/
theorem engagement_score_monotone_of_no_reviews_witness :
    calculate_engagement_score 3 0 4 10 ≤ calculate_engagement_score 5 0 4 10 :=
  engagement_score_monotone_of_no_reviews 3 5 4 10 (by norm_num) (by norm_num)

/-- C2 counterexample: at reviewsCount = 100000 (price 0, rating 0,
category "Other") the 500000 cap is applied after the `reviews*10` floor,
so the result 500000 is strictly below `reviewsCount*10 = 1000000`:
the floor property does not survive the cap. -/
theorem estimate_floor_fails_above_cap :
    estimate_community_size 100000 0 0 "Other" = 500000 ∧
      estimate_community_size 100000 0 0 "Other" < 100000 * 10 := by
  constructor <;>
    norm_num [estimate_community_size, category_ratios, pyInt, List.lookup]

/-- C2 (amended): for every input, the result of `estimate_community_size`
is at least `reviewsCount*10` provided `reviewsCount*10` does not exceed the
500000 cap (i.e. reviewsCount ≤ 50000); beyond that the cap wins and the
floor property fails. -/
theorem estimate_community_size_floor
    (reviews : ℕ) (price rating : ℚ) (category : String)
    (h : (reviews : ℤ) * 10 ≤ 500000) :
    (reviews : ℤ) * 10 ≤ estimate_community_size reviews price rating category := by
  unfold estimate_community_size
  exact le_min (le_max_right _ _) h

/-- C2 witness for `estimate_community_size_floor` at the spec's test point
reviews = 50, price = 0, rating = 4.9, category "Trading". -/
theorem estimate_community_size_floor_witness :
    ((50 : ℕ) : ℤ) * 10 ≤ estimate_community_size 50 0 (49/10) "Trading" :=
  estimate_community_size_floor 50 0 (49/10) "Trading" (by norm_num)

/-! ## Theorems: claim C8 — categorizer precedence -/

/-- C8: any document whose combined name+description text contains a Trading
keyword is classified "Trading" no matter what else matches, and the
categorizer is exactly first-match-wins evaluation of the fixed priority
order Trading, E-commerce, Real Estate, Finance, Crypto, Education with
default "Other". -/
theorem categorizer_trading_precedence :
    (∀ name desc : String,
      keywordHit (combinedText name desc)
          ["trading", "forex", "crypto", "bitcoin", "stocks", "investment"] = true →
        categorize name desc = "Trading")
    ∧ (∀ name desc : String, categorize name desc = categorizeSpec name desc) := by
  constructor
  · intro name desc h
    unfold categorize
    simp [h]
  · intro name desc
    unfold categorize categorizeSpec categoryOrder
    by_cases h1 : keywordHit (combinedText name desc)
        ["trading", "forex", "crypto", "bitcoin", "stocks", "investment"] = true
    · simp [List.find?, h1]
    · by_cases h2 : keywordHit (combinedText name desc)
          ["ecommerce", "e-commerce", "dropship", "amazon", "shopify"] = true
      · simp [List.find?, h1, h2]
      · by_cases h3 : keywordHit (combinedText name desc)
            ["real estate", "property", "realestate"] = true
        · simp [List.find?, h1, h2, h3]
        · by_cases h4 : keywordHit (combinedText name desc)
              ["finance", "financial", "money", "wealth"] = true
          · simp [List.find?, h1, h2, h3, h4]
          · by_cases h5 : keywordHit (combinedText name desc)
                ["crypto", "cryptocurrency", "bitcoin", "ethereum", "nft"] = true
            · simp [List.find?, h1, h2, h3, h4, h5]
            · by_cases h6 : keywordHit (combinedText name desc)
                  ["education", "course", "learn", "tutorial", "training"] = true
              · simp [List.find?, h1, h2, h3, h4, h5, h6]
              · simp [List.find?, h1, h2, h3, h4, h5, h6]

/-- C8 witness: a record whose text contains both "trading" and "nft"
classifies as "Trading" (Trading is checked before Crypto). -/
theorem categorizer_trading_precedence_witness :
    categorize "Alpha NFT Club" "nft and trading signals" = "Trading" :=
  categorizer_trading_precedence.1 "Alpha NFT Club" "nft and trading signals"
    (by decide)

/-! ## Theorems: claim C9 — rating range -/

/-- C9 counterexample: a structured aggregate-rating block carrying
ratingValue 9.9 is stored as-is, so averageRating = 9.9 lies outside
[0.0, 5.0] — the code never clamps the parsed value. -/
theorem rating_exceeds_five_from_structured :
    extractAverageRating ⟨some (some ⟨99/10, 5⟩), none⟩ = 99/10 ∧
      ¬ extractAverageRating ⟨some (some ⟨99/10, 5⟩), none⟩ ≤ 5 := by
  norm_num [extractAverageRating]

/-- C9 (amended): averageRating is nonnegative whenever every candidate value
is (the free-text "<number> out of 5" pattern only matches nonnegative
decimals, and a structured ratingValue is used as parsed), with 0.0 as the
unknown default; the upper bound 5.0 is NOT enforced — a parsed value above
5.0 is stored unchanged. -/
theorem rating_nonneg_when_inputs_nonneg (d : RatingDoc)
    (h1 : ∀ ar : AggregateRating, d.product = some (some ar) → 0 ≤ ar.ratingValue)
    (h2 : ∀ r : ℚ, d.outOfFiveText = some r → 0 ≤ r) :
    0 ≤ extractAverageRating d := by
  obtain ⟨p, t⟩ := d
  unfold extractAverageRating
  rcases p with _ | _ | ar
  · rcases t with _ | r
    · simp
    · simpa using h2 r rfl
  · rcases t with _ | r
    · simp
    · simpa using h2 r rfl
  · by_cases hrv : ar.ratingValue = 0
    · rcases t with _ | r
      · simp [hrv]
      · simpa [hrv] using h2 r rfl
    · have := h1 ar rfl
      rcases t with _ | r <;> simp [hrv] <;> simpa using this

/-- C9 witness for `rating_nonneg_when_inputs_nonneg` at a document whose
structured block carries ratingValue 5 and reviewCount 10. -/
theorem rating_nonneg_when_inputs_nonneg_witness :
    0 ≤ extractAverageRating ⟨some (some ⟨5, 10⟩), none⟩ := by
  apply rating_nonneg_when_inputs_nonneg
  · intro ar h
    simp only [Option.some.injEq] at h
    rw [← h]
    norm_num
  · intro r h
    simp at h

/-! ## Theorems: claim C3 — the isFree flag -/

/-- C3 counterexample: on the document where no dollar amount and no free
signal is found (the priceDisplay = "Unknown" branch), isFree is false, while
the claimed biconditional (isFree iff no-price-detected or free-signal)
demands true. -/
theorem is_free_false_on_unknown_branch :
    ¬ ((extractPrice ⟨[], [], [], false⟩).is_free = true ↔
        (noPriceDetected ⟨[], [], [], false⟩ ∨
          (⟨[], [], [], false⟩ : PriceDoc).hasFree = true)) := by
  simp [extractPrice, noPriceDetected, firstAmount, firstVisibleAmount]

/-- C3 (amended): isFree is true iff no dollar amount was matched by any of
the three price strategies AND an explicit free signal ("free", "$0",
"no cost") was found; on the no-price-no-free branch the code sets
priceDisplay = "Unknown" with isFree = false — an explicit unknown state
distinct from free. -/
theorem is_free_iff_free_signal (d : PriceDoc) :
    ((extractPrice d).is_free = true ↔ noPriceDetected d ∧ d.hasFree = true)
    ∧ (noPriceDetected d → d.hasFree = false →
        (extractPrice d).price_display = .unknown ∧ (extractPrice d).is_free = false) := by
  unfold extractPrice noPriceDetected
  cases h1 : firstAmount d.radios with
  | some sv =>
    obtain ⟨s, v⟩ := sv
    simp [h1]
  | none =>
    cases h2 : firstAmount d.buttons with
    | some sv =>
      obtain ⟨s, v⟩ := sv
      simp [h2]
    | none =>
      cases h3 : firstVisibleAmount d.texts with
      | some sv =>
        obtain ⟨s, v⟩ := sv
        simp [h3]
      | none =>
        cases h4 : d.hasFree <;> simp [h4]

/-- C3 witness for `is_free_iff_free_signal` at the empty document. -/
theorem is_free_iff_free_signal_witness :
    (extractPrice ⟨[], [], [], false⟩).price_display = .unknown ∧
      (extractPrice ⟨[], [], [], false⟩).is_free = false :=
  (is_free_iff_free_signal ⟨[], [], [], false⟩).2 ⟨rfl, rfl, rfl⟩ rfl

/-! ## Theorems: claim C4 — period detection per price strategy -/

/-- C4 counterexample: a weekly $10.00 price found by the call-to-action
(button) strategy is stored as 10, not 43.30±0.01 — Method 2 applies no
period detection at all. -/
theorem button_price_skips_period_detection :
    (extractPrice ⟨[], [⟨some 10, false, true, false, false⟩], [], false⟩).price_monthly_usd
        = 10 ∧
      ¬ |(extractPrice ⟨[], [⟨some 10, false, true, false, false⟩], [], false⟩).price_monthly_usd
          - 433/10| ≤ 1/100 := by
  constructor
  · rfl
  · rw [show (extractPrice ⟨[], [⟨some 10, false, true, false, false⟩], [], false⟩).price_monthly_usd
        = 10 from rfl]
    rw [abs_of_nonpos (by norm_num)]
    norm_num

/-- C4 (amended): period detection is applied by the selection-control
(radio) strategy and the visible-text strategy — one-time keeps the raw
value, weekly multiplies by 4.33, yearly divides by 12, daily multiplies by
30, no cue keeps the value monthly — but the call-to-action (button) strategy
stores the raw matched amount as the monthly price with no period
detection. -/
theorem period_detection_by_strategy (d : PriceDoc) (s : Span) (v : ℚ) :
    (firstAmount d.radios = some (s, v) →
      (extractPrice d).price_monthly_usd = (periodConvert s v).2)
    ∧ (firstAmount d.radios = none → firstAmount d.buttons = some (s, v) →
      (extractPrice d).price_monthly_usd = v)
    ∧ (firstAmount d.radios = none → firstAmount d.buttons = none →
        firstVisibleAmount d.texts = some (s, v) →
      (extractPrice d).price_monthly_usd = (periodConvert s v).2)
    ∧ (s.oneTime = true → (periodConvert s v).2 = v)
    ∧ (s.oneTime = false → s.weekly = true → (periodConvert s v).2 = v * (433/100))
    ∧ (s.oneTime = false → s.weekly = false → s.yearly = true →
        (periodConvert s v).2 = v / 12)
    ∧ (s.oneTime = false → s.weekly = false → s.yearly = false → s.daily = true →
        (periodConvert s v).2 = v * 30)
    ∧ (s.oneTime = false → s.weekly = false → s.yearly = false → s.daily = false →
        (periodConvert s v).2 = v) := by
  refine ⟨?_, ?_, ?_, ?_, ?_, ?_, ?_, ?_⟩
  · intro h
    unfold extractPrice
    rw [h]
  · intro h1 h2
    unfold extractPrice
    rw [h1, h2]
  · intro h1 h2 h3
    unfold extractPrice
    rw [h1, h2, h3]
  · intro h
    simp [periodConvert, h]
  · intro h1 h2
    simp [periodConvert, h1, h2]
  · intro h1 h2 h3
    simp [periodConvert, h1, h2, h3]
  · intro h1 h2 h3 h4
    simp [periodConvert, h1, h2, h3, h4]
  · intro h1 h2 h3 h4
    simp [periodConvert, h1, h2, h3, h4]

/-- C4 witness: a weekly $10.00 price found by the radio strategy is
converted to 10 * 4.33 = 43.30 per month. -/
theorem period_detection_by_strategy_witness :
    (extractPrice ⟨[⟨some 10, false, true, false, false⟩], [], [], false⟩).price_monthly_usd
        = (periodConvert ⟨some 10, false, true, false, false⟩ 10).2 ∧
      (periodConvert ⟨some 10, false, true, false, false⟩ 10).2 = 10 * (433/100) :=
  ⟨(period_detection_by_strategy
      ⟨[⟨some 10, false, true, false, false⟩], [], [], false⟩
      ⟨some 10, false, true, false, false⟩ 10).1 rfl,
   (period_detection_by_strategy
      ⟨[⟨some 10, false, true, false, false⟩], [], [], false⟩
      ⟨some 10, false, true, false, false⟩ 10).2.2.2.2.1 rfl rfl⟩

/-! ## Theorems: claim C5 — 404 handling -/

/-- C5 counterexample: against a remote that answers 404 on every attempt,
`get_page` of `scrape_new.py` with the default budget of 3 issues all 3
requests before failing — the 404 is retried, not returned immediately. -/
theorem scrape_get_page_retries_404 :
    scrape_get_page (List.replicate 3 (.httpStatus 404)) = (none, 3) ∧ (3 : ℕ) ≠ 1 := by
  constructor
  · rfl
  · decide

/-- C5 (amended): on a 404, `get_page` of `explore.py` returns failure
immediately with exactly one request issued, whatever responses the later
attempts would have produced and for every budget; `get_page` of
`scrape_new.py` has no 404 special case and keeps retrying — against an
all-404 remote it issues one request per budgeted attempt and then fails. -/
theorem get_page_404_behavior :
    (∀ rest : List FetchResp,
      explore_get_page (.httpStatus 404 :: rest) = (none, 1))
    ∧ (∀ n : ℕ,
      scrape_get_page (List.replicate n (.httpStatus 404)) = (none, n)) := by
  constructor
  · intro rest
    simp [explore_get_page]
  · intro n
    induction n with
    | zero => rfl
    | succ k ih => simp [List.replicate_succ, scrape_get_page, ih]

/-! ## Theorems: claim C6 — rank uniqueness and sort stability -/

theorem map_rank_assignRanksFrom :
    ∀ (l : List Community) (i : ℕ),
      (assignRanksFrom i l).map (fun c => c.rank) = List.range' i l.length
  | [], _ => by simp [assignRanksFrom]
  | c :: rest, i => by
    simp only [assignRanksFrom, List.map_cons, List.length_cons, List.range'_succ]
    exact congrArg _ (map_rank_assignRanksFrom rest (i + 1))

theorem scoreDescLe_trans (a b c : Community) :
    scoreDescLe a b → scoreDescLe b c → scoreDescLe a c := by
  simp only [scoreDescLe, decide_eq_true_eq]
  exact fun h1 h2 => le_trans h2 h1

theorem scoreDescLe_total (a b : Community) : scoreDescLe a b || scoreDescLe b a := by
  simp only [scoreDescLe, Bool.or_eq_true, decide_eq_true_eq]
  exact le_total _ _

/-- C6: the ranking pass emits ranks that are exactly 1, 2, ..., N in output
order (no gaps, no repeats), the sort is by engagementScore descending, and
it is stable: for every score value, the records holding that score appear in
the output in exactly their input order. -/
theorem rank_pass_ranks_and_stability (cs : List Community) :
    ((rankPass cs).map (fun c => c.rank) = List.range' 1 cs.length)
    ∧ (sortByScore cs).Pairwise
        (fun a b => b.engagement_score ≤ a.engagement_score)
    ∧ ∀ q : ℚ, (sortByScore cs).filter (fun c => decide (c.engagement_score = q)) =
        cs.filter (fun c => decide (c.engagement_score = q)) := by
  refine ⟨?_, ?_, ?_⟩
  · rw [rankPass, map_rank_assignRanksFrom, sortByScore, List.length_mergeSort]
  · have h := List.sorted_mergeSort scoreDescLe_trans scoreDescLe_total cs
    exact h.imp (fun hab => by simpa [scoreDescLe] using hab)
  · intro q
    have hsub : List.Sublist (cs.filter (fun c => decide (c.engagement_score = q))) cs :=
      List.filter_sublist cs
    have hpair : (cs.filter (fun c => decide (c.engagement_score = q))).Pairwise
        (fun a b => scoreDescLe a b = true) := by
      apply List.pairwise_of_forall_mem_list
      intro a ha b hb
      have ha' := (List.mem_filter.mp ha).2
      have hb' := (List.mem_filter.mp hb).2
      simp only [decide_eq_true_eq] at ha' hb'
      simp [scoreDescLe, ha', hb']
    have h1 : List.Sublist (cs.filter (fun c => decide (c.engagement_score = q))) (sortByScore cs) :=
      List.sublist_mergeSort scoreDescLe_trans scoreDescLe_total hpair hsub
    have h2 := h1.filter (fun c => decide (c.engagement_score = q))
    rw [List.filter_eq_self.mpr (fun a ha => (List.mem_filter.mp ha).2)] at h2
    have hlen : ((sortByScore cs).filter
          (fun c => decide (c.engagement_score = q))).length =
        (cs.filter (fun c => decide (c.engagement_score = q))).length :=
      ((List.mergeSort_perm cs scoreDescLe).filter _).length_eq
    exact (h2.eq_of_length hlen.symm).symm

/-! ## Theorems: claim C7 — deduplication by url -/

theorem seen_subset_seenAfter :
    ∀ (xs : List Community) (seen : List String), seen ⊆ seenAfter seen xs
  | [], _ => by simp [seenAfter]
  | c :: rest, seen => by
    unfold seenAfter
    by_cases hc : c.url ≠ "" ∧ c.url ∉ seen
    · rw [if_pos hc]
      exact fun u hu =>
        seen_subset_seenAfter rest (c.url :: seen) (List.mem_cons_of_mem _ hu)
    · rw [if_neg hc]
      exact seen_subset_seenAfter rest seen

theorem mem_seenAfter :
    ∀ (xs : List Community) (seen : List String) (c : Community),
      c ∈ xs → c.url ≠ "" → c.url ∈ seenAfter seen xs
  | [], _, _, hmem, _ => by simp at hmem
  | x :: rest, seen, c, hmem, hne => by
    unfold seenAfter
    rcases List.mem_cons.mp hmem with rfl | htail
    · by_cases hc : c.url ≠ "" ∧ c.url ∉ seen
      · rw [if_pos hc]
        exact seen_subset_seenAfter rest (c.url :: seen) (List.mem_cons_self _ _)
      · rw [if_neg hc]
        push_neg at hc
        exact seen_subset_seenAfter rest seen (hc hne)
    · by_cases hc : x.url ≠ "" ∧ x.url ∉ seen
      · rw [if_pos hc]
        exact mem_seenAfter rest (x.url :: seen) c htail hne
      · rw [if_neg hc]
        exact mem_seenAfter rest seen c htail hne

theorem dedupAux_append :
    ∀ (xs : List Community) (seen : List String) (ys : List Community),
      dedupAux seen (xs ++ ys) = dedupAux seen xs ++ dedupAux (seenAfter seen xs) ys
  | [], seen, ys => by simp [dedupAux, seenAfter]
  | c :: rest, seen, ys => by
    by_cases hc : c.url ≠ "" ∧ c.url ∉ seen
    · simp only [List.cons_append, dedupAux, seenAfter, if_pos hc]
      exact congrArg _ (dedupAux_append rest (c.url :: seen) ys)
    · simp only [List.cons_append, dedupAux, seenAfter, if_neg hc]
      exact dedupAux_append rest seen ys

theorem dedupAux_eq_nil_of_seen :
    ∀ (ys : List Community) (seen : List String),
      (∀ c ∈ ys, c.url = "" ∨ c.url ∈ seen) → dedupAux seen ys = []
  | [], _, _ => rfl
  | c :: rest, seen, h => by
    unfold dedupAux
    have hc : ¬ (c.url ≠ "" ∧ c.url ∉ seen) := by
      rcases h c (List.mem_cons_self _ _) with h1 | h1
      · exact fun hcon => hcon.1 h1
      · exact fun hcon => hcon.2 h1
    rw [if_neg hc]
    exact dedupAux_eq_nil_of_seen rest seen
      (fun d hd => h d (List.mem_cons_of_mem _ hd))

theorem dedupAux_nodup_urls :
    ∀ (xs : List Community) (seen : List String),
      ((dedupAux seen xs).map (fun c => c.url)).Nodup ∧
        ∀ u ∈ (dedupAux seen xs).map (fun c => c.url), u ∉ seen
  | [], _ => by simp [dedupAux]
  | c :: rest, seen => by
    unfold dedupAux
    by_cases hc : c.url ≠ "" ∧ c.url ∉ seen
    · rw [if_pos hc]
      obtain ⟨ih1, ih2⟩ := dedupAux_nodup_urls rest (c.url :: seen)
      refine ⟨?_, ?_⟩
      · rw [List.map_cons, List.nodup_cons]
        exact ⟨fun hmem => (ih2 _ hmem) (List.mem_cons_self _ _), ih1⟩
      · intro u hu
        rw [List.map_cons, List.mem_cons] at hu
        rcases hu with rfl | hu
        · exact hc.2
        · exact fun hs => (ih2 u hu) (List.mem_cons_of_mem _ hs)
    · rw [if_neg hc]
      exact dedupAux_nodup_urls rest seen

theorem dedupAux_find? :
    ∀ (xs : List Community) (seen : List String) (u : String), u ≠ "" → u ∉ seen →
      (dedupAux seen xs).find? (fun c => decide (c.url = u)) =
        xs.find? (fun c => decide (c.url = u))
  | [], _, _, _, _ => rfl
  | c :: rest, seen, u, hu, hseen => by
    unfold dedupAux
    by_cases hcu : c.url = u
    · have hc : c.url ≠ "" ∧ c.url ∉ seen := by
        rw [hcu]; exact ⟨hu, hseen⟩
      rw [if_pos hc]
      rw [List.find?_cons_of_pos _ (by simpa using hcu),
        List.find?_cons_of_pos _ (by simpa using hcu)]
    · by_cases hc : c.url ≠ "" ∧ c.url ∉ seen
      · rw [if_pos hc]
        rw [List.find?_cons_of_neg _ (by simpa using hcu),
          List.find?_cons_of_neg _ (by simpa using hcu)]
        exact dedupAux_find? rest (c.url :: seen) u hu
          (by
            intro hmem
            rcases List.mem_cons.mp hmem with h | h
            · exact hcu h.symm
            · exact hseen h)
      · rw [if_neg hc]
        rw [List.find?_cons_of_neg _ (by simpa using hcu)]
        exact dedupAux_find? rest seen u hu hseen

/-- C7: deduplication by url is idempotent under self-merge — concatenating
a collection with itself and deduplicating gives exactly the deduplicated
original (hence the same size), the result carries no duplicate url values,
and for every (non-empty — a record's url is its non-empty unique key per
the data model) url the record kept is the first occurrence in input order,
any later occurrence being discarded. -/
theorem dedup_first_wins_idempotent (xs : List Community) :
    dedupByUrl (xs ++ xs) = dedupByUrl xs
    ∧ (dedupByUrl (xs ++ xs)).length = (dedupByUrl xs).length
    ∧ ((dedupByUrl xs).map (fun c => c.url)).Nodup
    ∧ ∀ u : String, u ≠ "" →
        (dedupByUrl xs).find? (fun c => decide (c.url = u)) =
          xs.find? (fun c => decide (c.url = u)) := by
  have hidem : dedupByUrl (xs ++ xs) = dedupByUrl xs := by
    unfold dedupByUrl
    rw [dedupAux_append]
    rw [dedupAux_eq_nil_of_seen xs (seenAfter [] xs) ?h]
    · simp
    case h =>
      intro c hc
      by_cases hurl : c.url = ""
      · exact Or.inl hurl
      · exact Or.inr (mem_seenAfter xs [] c hc hurl)
  refine ⟨hidem, by rw [hidem], (dedupAux_nodup_urls xs []).1, ?_⟩
  intro u hu
  exact dedupAux_find? xs [] u hu (by simp)

/-- C7 witness for `dedup_first_wins_idempotent` on a two-record collection
sharing the url "a": the kept record is the first one. -/
theorem dedup_first_wins_idempotent_witness :
    (dedupByUrl [⟨"a", "first", 0, 0, 0, "Other", 0, "Low", 0, 0⟩,
        ⟨"a", "second", 0, 0, 0, "Other", 0, "Low", 0, 0⟩]).find?
        (fun c => decide (c.url = "a")) =
      ([⟨"a", "first", 0, 0, 0, "Other", 0, "Low", 0, 0⟩,
        ⟨"a", "second", 0, 0, 0, "Other", 0, "Low", 0, 0⟩] :
          List Community).find? (fun c => decide (c.url = "a")) :=
  (dedup_first_wins_idempotent
    [⟨"a", "first", 0, 0, 0, "Other", 0, "Low", 0, 0⟩,
     ⟨"a", "second", 0, 0, 0, "Other", 0, "Low", 0, 0⟩]).2.2.2 "a" (by decide)

/-! ## Theorems: claim C10 — no sentinel-named record is persisted -/

theorem appendScraped_no_unknown {batch : List Community} {r : Option Community}
    (h : ∀ c ∈ batch, c.community_name ≠ "Unknown") :
    ∀ c ∈ appendScraped r batch, c.community_name ≠ "Unknown" := by
  intro c hc
  match r with
  | none => exact h c hc
  | some x =>
    rw [appendScraped] at hc
    by_cases hx : x.community_name ≠ "Unknown"
    · rw [if_pos hx] at hc
      rcases List.mem_append.mp hc with h1 | h1
      · exact h c h1
      · rw [List.mem_singleton] at h1
        subst h1
        exact hx
    · rw [if_neg hx] at hc
      exact h c hc

theorem processResults_no_unknown :
    ∀ (results : List (Option Community)) (batch : List Community),
      (∀ c ∈ batch, c.community_name ≠ "Unknown") →
      ∀ c ∈ processResults results batch, c.community_name ≠ "Unknown"
  | [], batch, h => by simpa [processResults] using h
  | r :: rest, batch, h => by
    simp only [processResults, List.foldl_cons]
    exact processResults_no_unknown rest (appendScraped r batch)
      (appendScraped_no_unknown h)

/-- C10: starting from a batch buffer free of sentinel-named records, any run
of scrape results leaves it free of them — a scraped record whose name fell
through to the sentinel "Unknown" is dropped before the batch buffer (and so
never reaches the persisted collection), as the second conjunct states
explicitly for one step. -/
theorem persisted_batch_never_unknown (results : List (Option Community))
    (batch : List Community)
    (h : ∀ c ∈ batch, c.community_name ≠ "Unknown") :
    (∀ c ∈ processResults results batch, c.community_name ≠ "Unknown")
    ∧ ∀ c : Community, c.community_name = "Unknown" →
        appendScraped (some c) batch = batch :=
  ⟨processResults_no_unknown results batch h,
   fun _ hc => by simp [appendScraped, hc]⟩

/-- C10 witness: a concrete sentinel-named scrape result is dropped — the
batch stays empty. -/
theorem persisted_batch_never_unknown_witness :
    appendScraped (some ⟨"u", "Unknown", 0, 0, 0, "Other", 0, "Low", 0, 0⟩) [] =
      ([] : List Community) :=
  (persisted_batch_never_unknown [] [] (by simp)).2 _ rfl

end WhopScraper
